import Mathlib

/-!
Verification of the wallet account synchronization and transfer engine
(`src/account/sync/mod.rs`).  The definitions below are a shallow embedding
of that file: `u64` amounts become `Nat`, `i64` intermediate values become
`Int` (the claims under study are not about machine overflow), addresses
and message ids are abstracted to `Nat`, and the node is an explicit
function parameter.  Asynchronous collaborators (node RPC, storage) are
modelled as pure inputs; network failure modes appear as explicit `Option`
or response constructors where the source handles them.
-/

namespace WalletSync

/-- Output kinds of `crate::address::OutputKind`
(`SignatureLockedSingle`, `SignatureLockedDustAllowance`, `Treasury`). -/
inductive OutputKind where
  | signatureLockedSingle
  | signatureLockedDustAllowance
  | treasury
deriving DecidableEq, Repr

/-- An `OutputId` is the pair `(transaction_id, index)`. -/
structure OutputId where
  transaction_id : Nat
  index : Nat
deriving DecidableEq, Repr

/-- Shallow embedding of `crate::address::AddressOutput`.  Bech32 addresses
and message ids are abstracted to `Nat`; `amount` is the `u64` amount. -/
structure AddressOutput where
  transaction_id : Nat
  index : Nat
  amount : Nat
  kind : OutputKind
  is_spent : Bool
  message_id : Nat
  address : Nat
deriving DecidableEq, Repr

/-- Embedding of `AddressOutput::id`: the output id `(transaction_id, index)`. -/
def AddressOutput.id (o : AddressOutput) : OutputId :=
  ⟨o.transaction_id, o.index⟩

/-- Embedding of `AddressOutput::set_is_spent`. -/
def AddressOutput.set_is_spent (o : AddressOutput) (b : Bool) : AddressOutput :=
  { o with is_spent := b }

/-- Modelled from the spec: `crate::event::BalanceChange` (the `event`
module is not under `src/`).  The spec emits `BalanceChange{received|spent}`
events; the struct carries both fields, one of them zero. -/
structure BalanceChange where
  spent : Nat
  received : Nat
deriving DecidableEq, Repr

/-- Modelled from the spec: the `BalanceChange::spent` constructor. -/
def BalanceChange.mkSpent (value : Nat) : BalanceChange :=
  ⟨value, 0⟩

/-- Modelled from the spec: the `BalanceChange::received` constructor. -/
def BalanceChange.mkReceived (value : Nat) : BalanceChange :=
  ⟨0, value⟩

/-- Embedding of `BalanceChangeEventData` (src lines 1069-1073). -/
structure BalanceChangeEventData where
  address : Nat
  balance_change : BalanceChange
  message_id : Option Nat
deriving DecidableEq, Repr

/-- Embedding of the first loop of `get_balance_change_events`
(src lines 1149-1171): fold step over the after-sync output map entries,
carrying the event list, `output_change_balance` and the `emitted_event`
flag.  An output is processed when its id is not a key of
`before_sync_outputs`. -/
def balanceChangeStep (address : Nat)
    (before_sync_outputs : List (OutputId × AddressOutput))
    (st : List BalanceChangeEventData × Int × Bool)
    (p : OutputId × AddressOutput) :
    List BalanceChangeEventData × Int × Bool :=
  if before_sync_outputs.any (fun q => q.1 = p.1) then st
  else
    let output := p.2
    let balance_change :=
      if output.is_spent then BalanceChange.mkSpent output.amount
      else BalanceChange.mkReceived output.amount
    let output_change_balance :=
      if output.is_spent then st.2.1 - (output.amount : Int)
      else st.2.1 + (output.amount : Int)
    (st.1 ++ [⟨address, balance_change, some output.message_id⟩], output_change_balance, true)

/-- Embedding of the per-output part of `get_balance_change_events`:
the events, the accumulated `output_change_balance` and the
`emitted_event` flag produced by the first loop. -/
def balance_change_output_events (address : Nat)
    (before_sync_outputs : List (OutputId × AddressOutput))
    (outputs : List (OutputId × AddressOutput)) :
    List BalanceChangeEventData × Int × Bool :=
  outputs.foldl (balanceChangeStep address before_sync_outputs) ([], 0, false)

/-- Embedding of `get_balance_change_events` (src lines 1134-1197).
The `HashMap` iteration over `outputs` is modelled as a list of pairs;
the per-output loop only runs when `account_options.sync_spent_outputs`
is set, and the final reconciling event with `message_id = None` is
appended when no per-output event was emitted or the per-output deltas
do not add up to `new_balance - old_balance`. -/
def get_balance_change_events (old_balance new_balance : Nat) (address : Nat)
    (sync_spent_outputs : Bool)
    (before_sync_outputs : List (OutputId × AddressOutput))
    (outputs : List (OutputId × AddressOutput)) :
    List BalanceChangeEventData :=
  let st :=
    if sync_spent_outputs then balance_change_output_events address before_sync_outputs outputs
    else ([], 0, false)
  let balance_change_events := st.1
  let output_change_balance := st.2.1
  let emitted_event := st.2.2
  let balance_change : Int := (new_balance : Int) - (old_balance : Int)
  if emitted_event = false ∨ output_change_balance ≠ balance_change then
    let change : Int := (new_balance : Int) - (old_balance : Int) - output_change_balance
    let balance_change :=
      if 0 < change then BalanceChange.mkReceived change.toNat
      else BalanceChange.mkSpent change.natAbs
    balance_change_events ++ [⟨address, balance_change, none⟩]
  else balance_change_events

/-- Net signed amount carried by a list of balance-change events:
sum of received amounts minus sum of spent amounts. -/
def eventsNet (events : List BalanceChangeEventData) : Int :=
  (events.map (fun e => (e.balance_change.received : Int) - (e.balance_change.spent : Int))).sum

lemma eventsNet_append (a b : List BalanceChangeEventData) :
    eventsNet (a ++ b) = eventsNet a + eventsNet b := by
  simp [eventsNet]

lemma balanceChangeStep_net (address : Nat)
    (before : List (OutputId × AddressOutput))
    (st : List BalanceChangeEventData × Int × Bool) (p : OutputId × AddressOutput) :
    eventsNet (balanceChangeStep address before st p).1 - (balanceChangeStep address before st p).2.1
      = eventsNet st.1 - st.2.1 := by
  unfold balanceChangeStep
  by_cases h : before.any (fun q => q.1 = p.1)
  · simp [h]
  · by_cases hs : p.2.is_spent
    · simp only [h, Bool.false_eq_true, if_false, hs, if_true, eventsNet_append]
      simp [eventsNet, BalanceChange.mkSpent]
      ring
    · simp only [h, Bool.false_eq_true, if_false, hs, if_true, eventsNet_append]
      simp [eventsNet, BalanceChange.mkReceived]

lemma balance_change_fold_net (address : Nat)
    (before : List (OutputId × AddressOutput))
    (outputs : List (OutputId × AddressOutput)) :
    ∀ st : List BalanceChangeEventData × Int × Bool,
      eventsNet (outputs.foldl (balanceChangeStep address before) st).1
          - (outputs.foldl (balanceChangeStep address before) st).2.1
        = eventsNet st.1 - st.2.1 := by
  induction outputs with
  | nil => intro st; rfl
  | cons p rest ih =>
      intro st
      have h := balanceChangeStep_net address before st p
      calc eventsNet ((rest.foldl (balanceChangeStep address before) (balanceChangeStep address before st p))).1
            - ((rest.foldl (balanceChangeStep address before) (balanceChangeStep address before st p))).2.1
          = eventsNet (balanceChangeStep address before st p).1 - (balanceChangeStep address before st p).2.1 :=
            ih (balanceChangeStep address before st p)
        _ = eventsNet st.1 - st.2.1 := h

/-- C1. Balance-change event round-trip: for every old balance, new balance,
before-sync output map and after-sync output map (and either value of the
`sync_spent_outputs` option), the events returned by
`get_balance_change_events` satisfy
`new_balance = old_balance + Σ received - Σ spent`, computed in exact signed
integer arithmetic. -/
theorem balance_change_events_roundtrip
    (old_balance new_balance : Nat) (address : Nat) (sync_spent_outputs : Bool)
    (before_sync_outputs outputs : List (OutputId × AddressOutput)) :
    (new_balance : Int) = (old_balance : Int) +
      eventsNet (get_balance_change_events old_balance new_balance address
        sync_spent_outputs before_sync_outputs outputs) := by
  unfold get_balance_change_events
  set st := if sync_spent_outputs then
      balance_change_output_events address before_sync_outputs outputs
    else ([], 0, false) with hst
  have hnet : eventsNet st.1 - st.2.1 = 0 := by
    rw [hst]
    by_cases h : sync_spent_outputs
    · simp only [h, if_true]
      have := balance_change_fold_net address before_sync_outputs outputs ([], 0, false)
      simpa [balance_change_output_events, eventsNet] using this
    · simp [h, eventsNet]
  by_cases hcond : st.2.2 = false ∨ st.2.1 ≠ (new_balance : Int) - (old_balance : Int)
  · simp only [hcond, if_true]
    set change : Int := (new_balance : Int) - (old_balance : Int) - st.2.1 with hchange
    by_cases hpos : 0 < change
    · have htn : (change.toNat : Int) = change := Int.toNat_of_nonneg (le_of_lt hpos)
      simp only [hpos, if_true]
      rw [eventsNet_append]
      have : eventsNet [⟨address, BalanceChange.mkReceived change.toNat, none⟩]
          = (change.toNat : Int) := by
        simp [eventsNet, BalanceChange.mkReceived]
      rw [this, htn, hchange]
      omega
    · have hle : change ≤ 0 := le_of_not_lt hpos
      have hna : (change.natAbs : Int) = -change := by
        omega
      simp only [hpos, if_false]
      rw [eventsNet_append]
      have : eventsNet [⟨address, BalanceChange.mkSpent change.natAbs, none⟩]
          = -(change.natAbs : Int) := by
        simp [eventsNet, BalanceChange.mkSpent]
      rw [this, hna, hchange]
      omega
  · simp only [hcond, if_false]
    push_neg at hcond
    have h2 := hcond.2
    omega

/-! Output reconciliation.  `sync_address` (src lines 103-201) and the
per-address body of `sync_addresses_and_messages` (src lines 497-626)
evolve a `HashMap<OutputId, AddressOutput>`; the map is modelled as a
function `OutputId → Option AddressOutput`, the node's output listing for
the address as a `List OutputId`, and the node's `get_output` endpoint as
a function parameter.  Message collection is omitted: the claims under
study are about the output map only. -/

/-- An output map, modelling `HashMap<OutputId, AddressOutput>`. -/
def OutputMap : Type := OutputId → Option AddressOutput

/-- Map insertion, modelling `HashMap::insert`. -/
def OutputMap.insert (m : OutputMap) (id : OutputId) (o : AddressOutput) : OutputMap :=
  fun j => if j = id then some o else m j

/-- Embedding of the marking loop of `sync_address` (src lines 125-133):
every cached output whose id the node's listing does not contain is set
spent. -/
def mark_unlisted_spent (address_outputs : List OutputId) (outputs : OutputMap) : OutputMap :=
  fun id =>
    (outputs id).map (fun o =>
      if address_outputs.any (fun utxo_input => utxo_input = id) then o
      else o.set_is_spent true)

/-- Embedding of the per-listed-id body of `sync_address`
(src lines 135-198): a cached spent output is not re-fetched, anything
else is fetched from the node and inserted under its own id. -/
def sync_address_step (node_fetch : OutputId → AddressOutput) (marked : OutputMap)
    (acc : OutputMap) (output_id : OutputId) : OutputMap :=
  match marked output_id with
  | some existing_output =>
      if existing_output.is_spent then acc
      else acc.insert (node_fetch output_id).id (node_fetch output_id)
  | none => acc.insert (node_fetch output_id).id (node_fetch output_id)

/-- Embedding of the outputs-map evolution of `sync_address`
(src lines 103-201).  First every locally cached output whose id is not in
the node's listing `address_outputs` is marked spent; then for every
listed id the fetch step runs against the marked map.  `node_fetch` models
a successful `get_output` response converted by
`AddressOutput::from_output_response`. -/
def sync_address (address_outputs : List OutputId)
    (node_fetch : OutputId → AddressOutput) (outputs : OutputMap) : OutputMap :=
  let marked : OutputMap := mark_unlisted_spent address_outputs outputs
  address_outputs.foldl (sync_address_step node_fetch marked) marked

/-- Embedding of the prune step of `sync_addresses_and_messages`
(src lines 506-520): every cached output whose id the node's listing does
not contain and which is not yet spent is marked spent in the working
copy of the output map. -/
def sync_addresses_and_messages_prune (address_output_ids : List OutputId)
    (address_outputs_map : OutputMap) : OutputMap :=
  fun id =>
    (address_outputs_map id).map (fun pruned_output =>
      if ¬ address_output_ids.any (fun listed => listed = id) ∧ pruned_output.is_spent = false then
        pruned_output.set_is_spent true
      else pruned_output)

/-- Embedding of the per-listed-id body of the reconciliation loop of
`sync_addresses_and_messages` (src lines 531-619): the skip rules of
lines 532-553 come first (a locally spent output is re-fetched exactly
when spent outputs are not being synced, because the local spent state
may be wrong after an earlier 404, per the source comment; a locally
unspent output is re-fetched exactly when spent outputs are being
synced); a successful fetch is inserted under the fetched output's id,
and a 404 on a locally known output marks it spent (lines 578-597). -/
def sync_addresses_and_messages_step (sync_spent_outputs : Bool)
    (node_fetch : OutputId → Option AddressOutput) (address_outputs_map : OutputMap)
    (acc : OutputMap) (output_id : OutputId) : OutputMap :=
  let skip_fetch : Bool :=
    match address_outputs_map output_id with
    | some output => if output.is_spent then sync_spent_outputs else !sync_spent_outputs
    | none => false
  if skip_fetch then acc
  else
    match node_fetch output_id with
    | some address_output => acc.insert address_output.id address_output
    | none =>
        match address_outputs_map output_id with
        | some output => acc.insert (output.set_is_spent true).id (output.set_is_spent true)
        | none => acc

/-- Embedding of the per-address output reconciliation inside
`sync_addresses_and_messages` (src lines 497-626).  `address_outputs_map`
is `address.outputs` (the state before the sync), `address_output_ids` the
node's listing, and `node_fetch` the node's `get_output` endpoint where
`none` models a 404 response (the only error the claims exercise).
Message collection is omitted. -/
def sync_addresses_and_messages (sync_spent_outputs : Bool)
    (address_output_ids : List OutputId)
    (node_fetch : OutputId → Option AddressOutput)
    (address_outputs_map : OutputMap) : OutputMap :=
  let outputs : OutputMap := sync_addresses_and_messages_prune address_output_ids address_outputs_map
  address_output_ids.foldl
    (sync_addresses_and_messages_step sync_spent_outputs node_fetch address_outputs_map) outputs

/-- Coherence of an output map: every stored output is keyed by its own id.
This holds of every map the wallet builds (outputs are inserted under
`AddressOutput::id`). -/
def OutputMap.coherent (m : OutputMap) : Prop :=
  ∀ id o, m id = some o → o.id = id

/-- Coherence of a node fetch function: `get_output(id)` describes the
output with id `id` (guaranteed by the node API). -/
def fetchCoherent (node_fetch : OutputId → AddressOutput) : Prop :=
  ∀ id, (node_fetch id).id = id

/-- Coherence of a fallible node fetch function. -/
def fetchCoherentOpt (node_fetch : OutputId → Option AddressOutput) : Prop :=
  ∀ id o, node_fetch id = some o → o.id = id

lemma foldl_preserves_at {α : Type} (step : OutputMap → α → OutputMap)
    (l : List α) (id : OutputId)
    (h : ∀ acc j, j ∈ l → (step acc j) id = acc id) :
    ∀ acc : OutputMap, (l.foldl step acc) id = acc id := by
  induction l with
  | nil => intro acc; rfl
  | cons j rest ih =>
      intro acc
      have hrest : ∀ acc k, k ∈ rest → (step acc k) id = acc id := by
        intro acc k hk
        exact h acc k (List.mem_cons_of_mem j hk)
      calc (rest.foldl step (step acc j)) id = (step acc j) id := ih hrest (step acc j)
        _ = acc id := h acc j (List.mem_cons_self j rest)

lemma set_is_spent_self (o : AddressOutput) (h : o.is_spent = true) :
    o.set_is_spent true = o := by
  cases o
  simp_all [AddressOutput.set_is_spent]

lemma set_is_spent_id (o : AddressOutput) (b : Bool) :
    (o.set_is_spent b).id = o.id := by
  rfl

lemma sync_address_step_ne (node_fetch : OutputId → AddressOutput) (marked acc : OutputMap)
    (j id : OutputId) (hf : fetchCoherent node_fetch) (hjid : id ≠ j) :
    sync_address_step node_fetch marked acc j id = acc id := by
  unfold sync_address_step
  cases hmj : marked j with
  | none => simp [OutputMap.insert, hf j, hjid]
  | some e =>
      by_cases hsp : e.is_spent = true
      · simp [hsp]
      · simp [hsp, OutputMap.insert, hf j, hjid]

lemma sync_address_step_skip (node_fetch : OutputId → AddressOutput) (marked acc : OutputMap)
    (j : OutputId) (e : AddressOutput) (hmk : marked j = some e) (hsp : e.is_spent = true) :
    sync_address_step node_fetch marked acc j = acc := by
  unfold sync_address_step
  rw [hmk]
  simp [hsp]

lemma sam_step_ne (sync_spent_outputs : Bool) (node_fetch_opt : OutputId → Option AddressOutput)
    (m acc : OutputMap) (j id : OutputId)
    (hm : m.coherent) (hfo : fetchCoherentOpt node_fetch_opt) (hjid : id ≠ j) :
    sync_addresses_and_messages_step sync_spent_outputs node_fetch_opt m acc j id = acc id := by
  unfold sync_addresses_and_messages_step
  cases hmj : m j with
  | some output =>
      cases hsp : output.is_spent <;> cases hsync : sync_spent_outputs
      · simp [hsp]
      · cases hnf : node_fetch_opt j with
        | some fetched => simp [hsp, OutputMap.insert, hfo j fetched hnf, hjid]
        | none => simp [hsp, OutputMap.insert, set_is_spent_id, hm j output hmj, hjid]
      · cases hnf : node_fetch_opt j with
        | some fetched => simp [hsp, OutputMap.insert, hfo j fetched hnf, hjid]
        | none => simp [hsp, OutputMap.insert, set_is_spent_id, hm j output hmj, hjid]
      · simp [hsp]
  | none =>
      simp only [Bool.false_eq_true, if_false]
      cases hnf : node_fetch_opt j with
      | some fetched => simp [OutputMap.insert, hfo j fetched hnf, hjid]
      | none => simp

lemma sam_step_skip (node_fetch_opt : OutputId → Option AddressOutput)
    (m acc : OutputMap) (j : OutputId) (o : AddressOutput)
    (hmo : m j = some o) (hsp : o.is_spent = true) :
    sync_addresses_and_messages_step true node_fetch_opt m acc j = acc := by
  unfold sync_addresses_and_messages_step
  rw [hmo]
  simp [hsp]

/-- C3. Prune inference: in both `sync_address` and the per-address
reconciliation of `sync_addresses_and_messages`, every locally cached
output whose `OutputId` is absent from the node's returned output listing
ends up in the resulting output map marked `is_spent = true`, with all
other fields — in particular `message_id` — preserved unchanged. -/
theorem prune_inference_marks_spent
    (sync_spent_outputs : Bool) (listed : List OutputId)
    (node_fetch : OutputId → AddressOutput)
    (node_fetch_opt : OutputId → Option AddressOutput)
    (m : OutputMap) (id : OutputId) (o : AddressOutput)
    (hm : m.coherent) (hf : fetchCoherent node_fetch)
    (hfo : fetchCoherentOpt node_fetch_opt)
    (hstored : m id = some o) (habsent : id ∉ listed) :
    sync_address listed node_fetch m id = some (o.set_is_spent true) ∧
    sync_addresses_and_messages sync_spent_outputs listed node_fetch_opt m id
      = some (o.set_is_spent true) ∧
    (sync_address listed node_fetch m id).map (·.message_id) = some o.message_id := by
  have hlisted : listed.any (fun x => x = id) = false := by
    rw [List.any_eq_false]
    intro x hx
    simp only [decide_eq_true_eq]
    intro hxid
    exact habsent (hxid ▸ hx)
  have h1 : sync_address listed node_fetch m id = some (o.set_is_spent true) := by
    unfold sync_address
    rw [foldl_preserves_at]
    · simp [mark_unlisted_spent, hstored, hlisted]
    · intro acc j hj
      exact sync_address_step_ne node_fetch _ acc j id hf (fun heq => habsent (heq ▸ hj))
  refine ⟨h1, ?_, by rw [h1]; rfl⟩
  unfold sync_addresses_and_messages
  rw [foldl_preserves_at]
  · simp [sync_addresses_and_messages_prune, hstored, hlisted]
    intro h
    exact (set_is_spent_self o h).symm
  · intro acc j hj
    exact sam_step_ne sync_spent_outputs node_fetch_opt m acc j id hm hfo
      (fun heq => habsent (heq ▸ hj))

/-- C3 witness: a concrete run.  The map stores output id `(0,0)` unspent
with `message_id = 7`; the node lists only `(1,0)`; both reconcilers mark
`(0,0)` spent and preserve its `message_id`. -/
theorem prune_inference_marks_spent_witness :
    let o : AddressOutput := ⟨0, 0, 50, .signatureLockedSingle, false, 7, 4⟩
    let o1 : AddressOutput := ⟨1, 0, 60, .signatureLockedSingle, false, 8, 4⟩
    let m : OutputMap := fun id => if id = ⟨0, 0⟩ then some o else none
    let nf : OutputId → AddressOutput := fun id => { o1 with transaction_id := id.transaction_id, index := id.index }
    let nfo : OutputId → Option AddressOutput := fun id => some { o1 with transaction_id := id.transaction_id, index := id.index }
    sync_address [⟨1, 0⟩] nf m ⟨0, 0⟩ = some (o.set_is_spent true) ∧
    sync_addresses_and_messages false [⟨1, 0⟩] nfo m ⟨0, 0⟩ = some (o.set_is_spent true) ∧
    (sync_address [⟨1, 0⟩] nf m ⟨0, 0⟩).map (·.message_id) = some 7 := by
  intro o o1 m nf nfo
  have h := prune_inference_marks_spent false [⟨1, 0⟩] nf nfo m ⟨0, 0⟩ o
    (by intro id x hx; simp [m] at hx; rw [hx.2.symm, hx.1]; rfl)
    (by intro id; rfl)
    (by intro id x hx; simp [nfo] at hx; rw [hx.symm]; rfl)
    (by simp [m])
    (by decide)
  exact h

/-- C2 counterexample.  The local map stores output `(0,0)` with
`is_spent = true`; with `sync_spent_outputs = false` the node's listing
contains `(0,0)` and `get_output` reports it unspent: the reconciliation
of `sync_addresses_and_messages` re-fetches the locally spent output
(src lines 536-544: the skip applies only when spent outputs are synced)
and overwrites it with the node's unspent state, so `is_spent` is reset
to `false` — refuting the claim that no sync operation, under any value
of the `sync_spent_outputs` option and any node-reported state, ever
resets `is_spent`. -/
theorem spent_reset_counterexample :
    sync_addresses_and_messages false [⟨0, 0⟩]
      (fun id => if id = ⟨0, 0⟩ then some ⟨0, 0, 10, .signatureLockedSingle, false, 3, 1⟩ else none)
      (fun id => if id = ⟨0, 0⟩ then some ⟨0, 0, 10, .signatureLockedSingle, true, 3, 1⟩ else none)
      ⟨0, 0⟩ = some ⟨0, 0, 10, .signatureLockedSingle, false, 3, 1⟩ := by
  decide

/-- C2 (amended). Spent is terminal for `sync_address` (under any
node-reported state) and for `sync_addresses_and_messages` when
`sync_spent_outputs = true`: a locally stored spent output survives the
sync completely unchanged.  When `sync_spent_outputs = false`,
`sync_addresses_and_messages` deliberately re-fetches a locally spent
output that the node still lists and overwrites it with the node state,
which may reset `is_spent` to `false` (see the counterexample; the source
comment explains the local spent state may be wrong after an earlier
404). -/
theorem spent_terminal_amended
    (listed : List OutputId) (node_fetch : OutputId → AddressOutput)
    (node_fetch_opt : OutputId → Option AddressOutput)
    (m : OutputMap) (id : OutputId) (o : AddressOutput)
    (hm : m.coherent) (hf : fetchCoherent node_fetch)
    (hfo : fetchCoherentOpt node_fetch_opt)
    (hstored : m id = some o) (hspent : o.is_spent = true) :
    sync_address listed node_fetch m id = some o ∧
    sync_addresses_and_messages true listed node_fetch_opt m id = some o := by
  have hmarked : mark_unlisted_spent listed m id = some o := by
    unfold mark_unlisted_spent
    rw [hstored]
    cases hidl : listed.any (fun utxo_input => utxo_input = id)
    · simp [hidl, set_is_spent_self o hspent]
    · simp [hidl]
  constructor
  · unfold sync_address
    rw [foldl_preserves_at]
    · exact hmarked
    · intro acc j hj
      by_cases hji : j = id
      · subst hji
        rw [sync_address_step_skip node_fetch _ acc j o hmarked hspent]
      · exact sync_address_step_ne node_fetch _ acc j id hf (Ne.symm hji)
  · have hpruned : sync_addresses_and_messages_prune listed m id = some o := by
      unfold sync_addresses_and_messages_prune
      rw [hstored]
      simp [hspent]
    unfold sync_addresses_and_messages
    rw [foldl_preserves_at]
    · exact hpruned
    · intro acc j hj
      by_cases hji : j = id
      · subst hji
        rw [sam_step_skip node_fetch_opt m acc j o hstored hspent]
      · exact sam_step_ne true node_fetch_opt m acc j id hm hfo (Ne.symm hji)

/-- C2 witness: a concrete run of the amended theorem.  The output `(0,0)`
is stored spent; the node lists it and even reports it unspent; with
`sync_spent_outputs = true` (and for `sync_address` always) the stored
spent output is untouched. -/
theorem spent_terminal_amended_witness :
    let o : AddressOutput := ⟨0, 0, 10, .signatureLockedSingle, true, 3, 1⟩
    let m : OutputMap := fun id => if id = ⟨0, 0⟩ then some o else none
    let nf : OutputId → AddressOutput :=
      fun id => ⟨id.transaction_id, id.index, 10, .signatureLockedSingle, false, 3, 1⟩
    let nfo : OutputId → Option AddressOutput := fun id => some (nf id)
    sync_address [⟨0, 0⟩] nf m ⟨0, 0⟩ = some o ∧
    sync_addresses_and_messages true [⟨0, 0⟩] nfo m ⟨0, 0⟩ = some o := by
  intro o m nf nfo
  exact spent_terminal_amended [⟨0, 0⟩] nf nfo m ⟨0, 0⟩ o
    (by intro id x hx; simp [m] at hx; rw [hx.2.symm, hx.1]; rfl)
    (by intro id; rfl)
    (by intro id x hx; simp [nfo, nf] at hx; rw [hx.symm]; rfl)
    (by simp [m])
    rfl

/-! Input selection and transfer locking (src lines 1499-1617 and
1999-2011). -/

/-- Embedding of `SignerType` (`signing` module): the ledger variants hit
the hardware envelope; `stronghold` stands for every software signer
(the source match treats all non-ledger signers alike). -/
inductive SignerType where
  | stronghold
  | ledgerNano
  | ledgerNanoSimulator
deriving DecidableEq, Repr

/-- Embedding of the `iota_client::Error` variants the sync module
matches on. -/
inductive IotaClientError where
  | noNeedPromoteOrReattach (message_id : Nat)
  | responseError
  | other
deriving DecidableEq, Repr

/-- Embedding of the `crate::Error` variants raised by the sync module.
`dustError` carries the offending address (a formatted string in the
source). -/
inductive WalletError where
  | insufficientFunds (available value : Nat)
  | tooManyOutputs (output_amount max_outputs : Nat)
  | failedToGetRemainder
  | dustError (address : Nat)
  | messageNotFound
  | clientError (inner : IotaClientError)
deriving DecidableEq, Repr

/-- Constant from `bee_message::constants` (127 per the spec's constants
table). -/
def INPUT_OUTPUT_COUNT_MAX : Nat := 127

/-- Constant `LEDGER_MAX_IN_OUTPUTS` (src line 53). -/
def LEDGER_MAX_IN_OUTPUTS : Nat := 17

/-- Modelled from the spec: one destination of a `Transfer` (the `message`
module is not under `src/`); carries the address and the `u64` amount
(positive by construction, `NonZeroU64`). -/
structure TransferOutput where
  address : Nat
  amount : Nat
deriving DecidableEq, Repr

/-- Modelled from the spec: the `Transfer` fields the sync module reads
for selection and dust projection. -/
structure Transfer where
  outputs : List TransferOutput
deriving DecidableEq, Repr

/-- Modelled from the spec: `Transfer::amount`, the total transfer value,
the sum of the output amounts (the spec's remainder is the surplus of the
selected inputs over this total). -/
def Transfer.amount (t : Transfer) : Nat :=
  t.outputs.foldl (fun acc o => acc + o.amount) 0

/-- Embedding of `input_selection::AddressInputs`. -/
structure AddressInputs where
  address : Nat
  internal : Bool
  outputs : List AddressOutput
deriving DecidableEq, Repr

/-- Embedding of `input_selection::Input` (the `input_selection` module
is not under `src/`; its shape is determined by its uses in this file). -/
structure SelectionInput where
  internal : Bool
  output : AddressOutput
deriving DecidableEq, Repr

/-- Embedding of `input_selection::Remainder`. -/
structure Remainder where
  address : Nat
  internal : Bool
  amount : Nat
deriving DecidableEq, Repr

/-- Embedding of the `max_inputs` computation of `select_inputs`
(src lines 1518-1542): the ledger variants fail with `TooManyOutputs`
when the transfer's output count is at least `LEDGER_MAX_IN_OUTPUTS - 1`
(the source comment: one slot must remain for an input) and otherwise
allow `LEDGER_MAX_IN_OUTPUTS - output_amount` inputs; software signers
fail when the count is at least `INPUT_OUTPUT_COUNT_MAX` and otherwise
allow `INPUT_OUTPUT_COUNT_MAX` inputs. -/
def select_inputs_max_inputs (signer_type : SignerType) (output_amount : Nat) :
    Except WalletError Nat :=
  match signer_type with
  | .ledgerNano =>
      if output_amount ≥ LEDGER_MAX_IN_OUTPUTS - 1 then
        .error (.tooManyOutputs output_amount (LEDGER_MAX_IN_OUTPUTS - 1))
      else .ok (LEDGER_MAX_IN_OUTPUTS - output_amount)
  | .ledgerNanoSimulator =>
      if output_amount ≥ LEDGER_MAX_IN_OUTPUTS - 1 then
        .error (.tooManyOutputs output_amount (LEDGER_MAX_IN_OUTPUTS - 1))
      else .ok (LEDGER_MAX_IN_OUTPUTS - output_amount)
  | .stronghold =>
      if output_amount ≥ INPUT_OUTPUT_COUNT_MAX then
        .error (.tooManyOutputs output_amount INPUT_OUTPUT_COUNT_MAX)
      else .ok INPUT_OUTPUT_COUNT_MAX

/-- Check whether `addr` is one of the transfer's destination addresses
(the repeated `transfer_obj.outputs.iter().any(...)` tests). -/
def isDestination (transfer_obj : Transfer) (addr : Nat) : Bool :=
  transfer_obj.outputs.any (fun transfer_output => transfer_output.address = addr)

/-- Check whether an output is in the locked-outputs list, compared by
`(transaction_id, index)` (src lines 1553 and 1559-1561). -/
def lockedMatches (locked_outputs : List AddressOutput) (output : AddressOutput) : Bool :=
  locked_outputs.any (fun locked_output =>
    locked_output.transaction_id = output.transaction_id ∧
      locked_output.index = output.index)

/-- Embedding of the candidate filter of `select_inputs`
(src lines 1546-1562), with the source's operator precedence: an output
passes when (it is not on a destination address, has positive amount and
is not locked) or (it is on a destination address with amount at most the
transfer amount) — and, repeated in the source, has positive amount and
is not locked. -/
def select_inputs_filter (transfer_obj : Transfer) (locked_outputs : List AddressOutput)
    (outputs : List AddressOutput) : List AddressOutput :=
  outputs.filter (fun output =>
    ((!isDestination transfer_obj output.address
        && decide (0 < output.amount)
        && !lockedMatches locked_outputs output
      || isDestination transfer_obj output.address
        && decide (output.amount ≤ transfer_obj.amount))
      && decide (0 < output.amount)
      && !lockedMatches locked_outputs output))

/-- Embedding of the flattening of the filtered outputs into
`available_inputs` (src lines 1544-1569). -/
def select_inputs_available (transfer_obj : Transfer) (locked_outputs : List AddressOutput)
    (available_outputs : List AddressInputs) : List SelectionInput :=
  available_outputs.foldl (fun acc address_input =>
    acc ++ (select_inputs_filter transfer_obj locked_outputs address_input.outputs).map
      (fun output => ⟨address_input.internal, output⟩)) []

/-- Embedding of the grouping of the selected inputs by address
(src lines 1599-1614).  The source collects into a `HashMap` and returns
`into_values()`, whose order is unspecified; the model uses first-seen
insertion order. -/
def group_selected (selected_outputs : List SelectionInput) : List AddressInputs :=
  selected_outputs.foldl (fun acc input =>
    if acc.any (fun entry => entry.address = input.output.address) then
      acc.map (fun entry =>
        if entry.address = input.output.address then
          { entry with outputs := entry.outputs ++ [input.output] }
        else entry)
    else acc ++ [⟨input.output.address, input.internal, [input.output]⟩]) []

/-- Sum of the amounts of the selected inputs (src line 1574). -/
def selected_amount (selected_outputs : List SelectionInput) : Nat :=
  selected_outputs.foldl (fun acc a => acc + a.output.amount) 0

/-- Embedding of `SyncedAccount::select_inputs` (src lines 1511-1617).
The call to `input_selection::select_input` (a module not under `src/`)
is the parameter `select_input`; the `&mut` locked-outputs vector is
returned alongside the result (the source extends it with every selected
output before computing the remainder, so it stays extended even on the
`FailedToGetRemainder` path). -/
def select_inputs
    (select_input : Nat → List SelectionInput → Nat → Except WalletError (List SelectionInput))
    (locked_outputs : List AddressOutput) (transfer_obj : Transfer)
    (available_outputs : List AddressInputs) (signer_type : SignerType) :
    Except WalletError (List AddressInputs × Option Remainder) × List AddressOutput :=
  match select_inputs_max_inputs signer_type transfer_obj.outputs.length with
  | .error e => (.error e, locked_outputs)
  | .ok max_inputs =>
    let available_inputs := select_inputs_available transfer_obj locked_outputs available_outputs
    match select_input transfer_obj.amount available_inputs max_inputs with
    | .error e => (.error e, locked_outputs)
    | .ok selected_outputs =>
      let locked_outputs := locked_outputs ++ selected_outputs.map (fun input => input.output)
      let inputs_amount := selected_amount selected_outputs
      if transfer_obj.amount < inputs_amount then
        match (selected_outputs.filter
            (fun input => !isDestination transfer_obj input.output.address)).getLast? with
        | some remainder =>
            (.ok (group_selected selected_outputs,
              some ⟨remainder.output.address, remainder.internal, inputs_amount⟩),
             locked_outputs)
        | none => (.error .failedToGetRemainder, locked_outputs)
      else
        (.ok (group_selected selected_outputs, none), locked_outputs)

/-- C4. Remainder source: whenever input selection returns inputs whose
total exceeds the transfer amount, `select_inputs` returns a remainder
whose source address is the last selected input whose address is not
among the transfer's destinations (hence the remainder source is never a
destination), and fails with `FailedToGetRemainder` when no such input
exists; when the total equals the transfer amount no remainder is
returned.  Quantified over every selection function, so it holds for
whatever `input_selection::select_input` returns. -/
theorem select_inputs_remainder_source
    (select_input : Nat → List SelectionInput → Nat → Except WalletError (List SelectionInput))
    (locked_outputs : List AddressOutput) (transfer_obj : Transfer)
    (available_outputs : List AddressInputs) (signer_type : SignerType)
    (max_inputs : Nat) (selected : List SelectionInput)
    (hmax : select_inputs_max_inputs signer_type transfer_obj.outputs.length = .ok max_inputs)
    (hsel : select_input transfer_obj.amount
      (select_inputs_available transfer_obj locked_outputs available_outputs) max_inputs
      = .ok selected) :
    (transfer_obj.amount < selected_amount selected →
      ((selected.filter (fun input => !isDestination transfer_obj input.output.address) = [] ∧
        (select_inputs select_input locked_outputs transfer_obj available_outputs signer_type).1
          = .error .failedToGetRemainder) ∨
       (∃ last,
         (selected.filter
           (fun input => !isDestination transfer_obj input.output.address)).getLast?
             = some last ∧
         (select_inputs select_input locked_outputs transfer_obj available_outputs signer_type).1
           = .ok (group_selected selected,
               some ⟨last.output.address, last.internal, selected_amount selected⟩) ∧
         isDestination transfer_obj last.output.address = false))) ∧
    (transfer_obj.amount = selected_amount selected →
      (select_inputs select_input locked_outputs transfer_obj available_outputs signer_type).1
        = .ok (group_selected selected, none)) := by
  have hunfold : select_inputs select_input locked_outputs transfer_obj available_outputs
        signer_type
      = (if transfer_obj.amount < selected_amount selected then
          match (selected.filter
              (fun input => !isDestination transfer_obj input.output.address)).getLast? with
          | some remainder =>
              (.ok (group_selected selected,
                some ⟨remainder.output.address, remainder.internal, selected_amount selected⟩),
               locked_outputs ++ selected.map (fun input => input.output))
          | none => (.error .failedToGetRemainder,
               locked_outputs ++ selected.map (fun input => input.output))
        else (.ok (group_selected selected, none),
               locked_outputs ++ selected.map (fun input => input.output))) := by
    simp only [select_inputs, hmax, hsel]
  constructor
  · intro hgt
    cases hlast : (selected.filter
        (fun input => !isDestination transfer_obj input.output.address)).getLast? with
    | none =>
        left
        exact ⟨List.getLast?_eq_none_iff.mp hlast, by rw [hunfold, if_pos hgt, hlast]⟩
    | some last =>
        right
        refine ⟨last, rfl, by rw [hunfold, if_pos hgt, hlast], ?_⟩
        have hmem := List.mem_of_getLast?_eq_some hlast
        have hpred := (List.mem_filter.mp hmem).2
        simpa using hpred
  · intro heq
    rw [hunfold, if_neg (by omega)]

/-- C4 witness: a concrete run in both regimes.  With destination address
`9` for `300` and two selected inputs of `200` on address `5`, the total
`400` exceeds the transfer amount and the remainder source is the last
non-destination input (address `5`, carrying `inputs_amount = 400`); with
a single selected input of `200` for a transfer of `200` no remainder is
returned. -/
theorem select_inputs_remainder_source_witness :
    (select_inputs
        (fun _ _ _ => .ok [⟨false, ⟨0, 0, 200, .signatureLockedSingle, false, 3, 5⟩⟩,
                           ⟨false, ⟨0, 1, 200, .signatureLockedSingle, false, 3, 5⟩⟩])
        [] ⟨[⟨9, 300⟩]⟩ [] .stronghold).1
      = .ok ([⟨5, false, [⟨0, 0, 200, .signatureLockedSingle, false, 3, 5⟩,
                          ⟨0, 1, 200, .signatureLockedSingle, false, 3, 5⟩]⟩],
             some ⟨5, false, 400⟩) ∧
    (select_inputs
        (fun _ _ _ => .ok [⟨false, ⟨0, 0, 200, .signatureLockedSingle, false, 3, 5⟩⟩])
        [] ⟨[⟨9, 200⟩]⟩ [] .stronghold).1
      = .ok ([⟨5, false, [⟨0, 0, 200, .signatureLockedSingle, false, 3, 5⟩]⟩], none) := by
  constructor
  · have h := (select_inputs_remainder_source
        (fun _ _ _ => .ok [⟨false, ⟨0, 0, 200, .signatureLockedSingle, false, 3, 5⟩⟩,
                           ⟨false, ⟨0, 1, 200, .signatureLockedSingle, false, 3, 5⟩⟩])
        [] ⟨[⟨9, 300⟩]⟩ [] .stronghold 127
        [⟨false, ⟨0, 0, 200, .signatureLockedSingle, false, 3, 5⟩⟩,
         ⟨false, ⟨0, 1, 200, .signatureLockedSingle, false, 3, 5⟩⟩] rfl rfl).1 (by decide)
    rcases h with ⟨hfil, _⟩ | ⟨last, hl, hres, _⟩
    · exact absurd hfil (by decide)
    · have hlast : last = ⟨false, ⟨0, 1, 200, .signatureLockedSingle, false, 3, 5⟩⟩ := by
        have hval : (([⟨false, ⟨0, 0, 200, .signatureLockedSingle, false, 3, 5⟩⟩,
            ⟨false, ⟨0, 1, 200, .signatureLockedSingle, false, 3, 5⟩⟩] :
              List SelectionInput).filter
            (fun input => !isDestination ⟨[⟨9, 300⟩]⟩ input.output.address)).getLast?
            = some ⟨false, ⟨0, 1, 200, .signatureLockedSingle, false, 3, 5⟩⟩ := by decide
        exact (Option.some.injEq _ _).mp (hl.symm.trans hval)
      rw [hres, hlast]
      rfl
  · exact (select_inputs_remainder_source
        (fun _ _ _ => .ok [⟨false, ⟨0, 0, 200, .signatureLockedSingle, false, 3, 5⟩⟩])
        [] ⟨[⟨9, 200⟩]⟩ [] .stronghold 127
        [⟨false, ⟨0, 0, 200, .signatureLockedSingle, false, 3, 5⟩⟩] rfl rfl).2 (by decide)

/-- Output-count cap per signer kind: `LEDGER_MAX_IN_OUTPUTS - 1 = 16`
for the ledger variants, `INPUT_OUTPUT_COUNT_MAX = 127` for software
signers — the threshold at which `select_inputs` rejects a transfer. -/
def signer_cap (signer_type : SignerType) : Nat :=
  match signer_type with
  | .ledgerNano => LEDGER_MAX_IN_OUTPUTS - 1
  | .ledgerNanoSimulator => LEDGER_MAX_IN_OUTPUTS - 1
  | .stronghold => INPUT_OUTPUT_COUNT_MAX

/-- C5 counterexample.  The claim says the call fails only when the
output count exceeds the cap (16 for ledger, `INPUT_OUTPUT_COUNT_MAX` for
software) and that otherwise selection proceeds; but the source uses `>=`
(src lines 1523 and 1537), so a ledger transfer with exactly 16 outputs
— which by the claim should proceed with one input slot — fails with
`TooManyOutputs(16, 16)`, and a software transfer with exactly 127
outputs fails with `TooManyOutputs(127, 127)`. -/
theorem too_many_outputs_at_cap :
    (select_inputs (fun _ _ _ => .ok []) [] ⟨List.replicate 16 ⟨0, 1⟩⟩ [] .ledgerNano).1
      = .error (.tooManyOutputs 16 16) ∧
    (select_inputs (fun _ _ _ => .ok []) [] ⟨List.replicate 127 ⟨0, 1⟩⟩ [] .stronghold).1
      = .error (.tooManyOutputs 127 127) := by
  exact ⟨rfl, rfl⟩

/-- C5 (amended). Output-count cap: `select_inputs` fails with
`TooManyOutputs(output_count, cap)` exactly when the transfer's output
count is at least the cap — `17 - 1 = 16` for the ledger variants (so 17
destinations yield `TooManyOutputs(17, 16)`, and so do 16),
`INPUT_OUTPUT_COUNT_MAX = 127` for software signers; below the cap,
selection proceeds with `max_inputs = 17 - output_count` (ledger) or
`INPUT_OUTPUT_COUNT_MAX` (software). -/
theorem output_count_cap_amended (signer_type : SignerType) (n : Nat) :
    (signer_cap signer_type ≤ n →
      select_inputs_max_inputs signer_type n
        = .error (.tooManyOutputs n (signer_cap signer_type))) ∧
    (n < signer_cap signer_type →
      select_inputs_max_inputs signer_type n
        = .ok (match signer_type with
               | .ledgerNano => LEDGER_MAX_IN_OUTPUTS - n
               | .ledgerNanoSimulator => LEDGER_MAX_IN_OUTPUTS - n
               | .stronghold => INPUT_OUTPUT_COUNT_MAX)) ∧
    (∀ (select_input : Nat → List SelectionInput → Nat →
          Except WalletError (List SelectionInput))
       (locked_outputs : List AddressOutput) (transfer_obj : Transfer)
       (available_outputs : List AddressInputs),
      transfer_obj.outputs.length = n → signer_cap signer_type ≤ n →
      (select_inputs select_input locked_outputs transfer_obj available_outputs signer_type).1
        = .error (.tooManyOutputs n (signer_cap signer_type))) := by
  have hcap : ∀ k, signer_cap signer_type ≤ k →
      select_inputs_max_inputs signer_type k
        = .error (.tooManyOutputs k (signer_cap signer_type)) := by
    intro k hk
    cases signer_type <;>
      simp only [select_inputs_max_inputs, signer_cap] at hk ⊢ <;>
      rw [if_pos (by omega)]
  refine ⟨hcap n, ?_, ?_⟩
  · intro hlt
    cases signer_type <;>
      simp only [select_inputs_max_inputs, signer_cap] at hlt ⊢ <;>
      rw [if_neg (by omega)]
  · intro select_input locked_outputs transfer_obj available_outputs hlen hge
    unfold select_inputs
    rw [hlen, hcap n hge]

/-- C5 witness: the spec's own S2 scenario plus the proceed branch.
Seventeen ledger destinations yield `TooManyOutputs(17, 16)` (also
through the full `select_inputs` path), and three destinations proceed
with `max_inputs = 17 - 3 = 14`. -/
theorem output_count_cap_amended_witness :
    select_inputs_max_inputs .ledgerNano 17 = .error (.tooManyOutputs 17 16) ∧
    select_inputs_max_inputs .ledgerNano 3 = .ok 14 ∧
    (select_inputs (fun _ _ _ => .ok []) [] ⟨List.replicate 17 ⟨0, 1⟩⟩ [] .ledgerNano).1
      = .error (.tooManyOutputs 17 16) := by
  refine ⟨(output_count_cap_amended .ledgerNano 17).1 (by decide), ?_,
    (output_count_cap_amended .ledgerNano 17).2.2 (fun _ _ _ => .ok []) []
      ⟨List.replicate 17 ⟨0, 1⟩⟩ [] (by decide) (by decide)⟩
  have h := (output_count_cap_amended .ledgerNano 3).2.1 (by decide)
  rw [h]
  rfl

/-- Embedding of the lock-release loop at the end of `transfer`
(src lines 1999-2011): for each input address, find the first position in
the locked-outputs vector whose `(transaction_id, index)` matches any of
that address's outputs and remove that single entry; the source
`.unwrap()`s the position, modelled by `Option` (`none` = panic). -/
def release_locked (input_addresses : List AddressInputs)
    (locked_outputs : List AddressOutput) : Option (List AddressOutput) :=
  input_addresses.foldl (fun acc input_address =>
    acc.bind (fun locked =>
      (locked.findIdx? (fun a => input_address.outputs.any (fun output =>
          output.transaction_id = a.transaction_id ∧ output.index = a.index))).map
        (fun index => locked.eraseIdx index))) (some locked_outputs)

/-- C9 (code evaluated at the failing input).  A transfer selects two
outputs `(0,0)` and `(0,1)` of the same address `5`: `select_inputs`
locks both (second component of the result), and the grouping returns a
single `AddressInputs` entry holding both outputs; the release loop of
`transfer` then removes only one locked entry per input address, so after
the transfer returns, output `(0,1)` is still in `LockedOutputs` —
contradicting the claim that every `OutputId` locked for the transfer is
removed. -/
theorem release_locked_leaves_locked_output :
    (select_inputs
        (fun _ _ _ => .ok [⟨false, ⟨0, 0, 250, .signatureLockedSingle, false, 3, 5⟩⟩,
                           ⟨false, ⟨0, 1, 250, .signatureLockedSingle, false, 3, 5⟩⟩])
        [] ⟨[⟨9, 400⟩]⟩ [] .stronghold).2
      = [⟨0, 0, 250, .signatureLockedSingle, false, 3, 5⟩,
         ⟨0, 1, 250, .signatureLockedSingle, false, 3, 5⟩] ∧
    (select_inputs
        (fun _ _ _ => .ok [⟨false, ⟨0, 0, 250, .signatureLockedSingle, false, 3, 5⟩⟩,
                           ⟨false, ⟨0, 1, 250, .signatureLockedSingle, false, 3, 5⟩⟩])
        [] ⟨[⟨9, 400⟩]⟩ [] .stronghold).1
      = .ok ([⟨5, false, [⟨0, 0, 250, .signatureLockedSingle, false, 3, 5⟩,
                          ⟨0, 1, 250, .signatureLockedSingle, false, 3, 5⟩]⟩],
             some ⟨5, false, 500⟩) ∧
    release_locked
        [⟨5, false, [⟨0, 0, 250, .signatureLockedSingle, false, 3, 5⟩,
                     ⟨0, 1, 250, .signatureLockedSingle, false, 3, 5⟩]⟩]
        [⟨0, 0, 250, .signatureLockedSingle, false, 3, 5⟩,
         ⟨0, 1, 250, .signatureLockedSingle, false, 3, 5⟩]
      = some [⟨0, 1, 250, .signatureLockedSingle, false, 3, 5⟩] := by
  exact ⟨rfl, rfl, rfl⟩

/-! Dust-protection admission (src lines 46-48, 2043-2056, 2593-2673). -/

/-- Constant `MAX_ALLOWED_DUST_OUTPUTS: i64 = 100` (src line 46). -/
def MAX_ALLOWED_DUST_OUTPUTS : Int := 100

/-- Constant `DUST_DIVISOR: i64 = 100_000` (src line 47). -/
def DUST_DIVISOR : Int := 100000

/-- Constant `DUST_ALLOWANCE_VALUE: u64 = 1_000_000` (src line 48). -/
def DUST_ALLOWANCE_VALUE : Nat := 1000000

/-- Embedding of the transaction-effect loop of `is_dust_allowed`
(src lines 2604-2612): each `(dust, add_outputs)` recorder adjusts the
dust-allowance balance (amounts at or above `DUST_ALLOWANCE_VALUE`) or
the dust-output count, with sign `+1` for created and `-1` for consumed. -/
def is_dust_allowed_tx_step (acc : Int × Int) (p : Nat × Bool) : Int × Int :=
  let sign : Int := if p.2 then 1 else -1
  if p.1 ≥ DUST_ALLOWANCE_VALUE then (acc.1 + sign * (p.1 : Int), acc.2)
  else (acc.1, acc.2 + sign)

/-- Embedding of the existing-outputs loop of `is_dust_allowed`
(src lines 2649-2661). -/
def is_dust_allowed_outputs_step (acc : Int × Int) (p : Nat × OutputKind) : Int × Int :=
  match p.2 with
  | .signatureLockedDustAllowance => (acc.1 + (p.1 : Int), acc.2)
  | .signatureLockedSingle =>
      if p.1 < DUST_ALLOWANCE_VALUE then (acc.1, acc.2 + 1) else acc
  | .treasury => acc

/-- Embedding of `is_dust_allowed` (src lines 2593-2673).  The node's
`balance(address)` response is split into `balance` and `dust_allowed`;
`address_outputs` is the list of `(amount, kind)` pairs of the address's
unspent outputs (read from the account when it owns the address,
otherwise fetched from the node, lines 2630-2648 — either way a plain
list here); `outputs` is this transaction's `(amount, created)` recorder
list.  Rust `i64` division truncates toward zero, embedded as
`Int.tdiv`. -/
def is_dust_allowed (dust_allowed : Bool) (balance : Nat)
    (address_outputs : List (Nat × OutputKind)) (address : Nat)
    (outputs : List (Nat × Bool)) : Except WalletError Unit :=
  let tx := outputs.foldl is_dust_allowed_tx_step (0, 0)
  let dust_allowance_balance := tx.1
  let dust_outputs_amount := tx.2
  if dust_allowed = true ∧ dust_outputs_amount = 1 ∧ dust_allowance_balance ≥ 0 ∧
      Int.tdiv (balance : Int) DUST_DIVISOR < MAX_ALLOWED_DUST_OUTPUTS then
    .ok ()
  else if dust_allowed = false ∧ dust_outputs_amount = 1 ∧ dust_allowance_balance ≤ 0 then
    .error (.dustError address)
  else
    let totals := address_outputs.foldl is_dust_allowed_outputs_step
      (dust_allowance_balance, dust_outputs_amount)
    let allowed_dust_amount := min (Int.tdiv totals.1 DUST_DIVISOR) MAX_ALLOWED_DUST_OUTPUTS
    if totals.2 > allowed_dust_amount then .error (.dustError address)
    else .ok ()

/-- Net dust-allowance delta of this transaction, written as a sum
(specification side). -/
def txAllowanceDelta (outputs : List (Nat × Bool)) : Int :=
  (outputs.map (fun p =>
    if p.1 ≥ DUST_ALLOWANCE_VALUE then (if p.2 then (p.1 : Int) else -(p.1 : Int))
    else 0)).sum

/-- Net dust-output count delta of this transaction, written as a sum
(specification side). -/
def txDustDelta (outputs : List (Nat × Bool)) : Int :=
  (outputs.map (fun p =>
    if p.1 ≥ DUST_ALLOWANCE_VALUE then 0 else (if p.2 then (1 : Int) else -1))).sum

/-- Dust-allowance balance of the address's unspent outputs, written as a
sum (specification side). -/
def existingAllowance (address_outputs : List (Nat × OutputKind)) : Int :=
  (address_outputs.map (fun p =>
    match p.2 with
    | .signatureLockedDustAllowance => (p.1 : Int)
    | _ => 0)).sum

/-- Count of unspent dust outputs at the address, written as a sum
(specification side). -/
def existingDust (address_outputs : List (Nat × OutputKind)) : Int :=
  (address_outputs.map (fun p =>
    match p.2 with
    | .signatureLockedSingle => if p.1 < DUST_ALLOWANCE_VALUE then (1 : Int) else 0
    | _ => 0)).sum

lemma tx_fold_eq (outputs : List (Nat × Bool)) :
    ∀ acc : Int × Int,
      outputs.foldl is_dust_allowed_tx_step acc
        = (acc.1 + txAllowanceDelta outputs, acc.2 + txDustDelta outputs) := by
  induction outputs with
  | nil => intro acc; simp [txAllowanceDelta, txDustDelta]
  | cons p rest ih =>
      intro acc
      rw [List.foldl_cons, ih]
      unfold is_dust_allowed_tx_step txAllowanceDelta txDustDelta
      by_cases h1 : p.1 ≥ DUST_ALLOWANCE_VALUE <;> cases h2 : p.2 <;>
        simp [h1, h2] <;> omega

lemma outputs_fold_eq (address_outputs : List (Nat × OutputKind)) :
    ∀ acc : Int × Int,
      address_outputs.foldl is_dust_allowed_outputs_step acc
        = (acc.1 + existingAllowance address_outputs, acc.2 + existingDust address_outputs) := by
  induction address_outputs with
  | nil => intro acc; simp [existingAllowance, existingDust]
  | cons p rest ih =>
      intro acc
      rw [List.foldl_cons, ih]
      unfold is_dust_allowed_outputs_step existingAllowance existingDust
      cases hk : p.2
      · by_cases h1 : p.1 < DUST_ALLOWANCE_VALUE <;> simp [hk, h1]
        omega
      · simp [hk]
        omega
      · simp [hk]

/-- Fast-path admission condition (src lines 2617-2621): the node already
flags dust as allowed, exactly one net dust output is created, the
allowance delta is non-negative and the node balance divided by
`DUST_DIVISOR` is below `MAX_ALLOWED_DUST_OUTPUTS`. -/
def dustFastAdmit (dust_allowed : Bool) (balance : Nat) (outputs : List (Nat × Bool)) : Prop :=
  dust_allowed = true ∧ txDustDelta outputs = 1 ∧ txAllowanceDelta outputs ≥ 0 ∧
    Int.tdiv (balance : Int) DUST_DIVISOR < MAX_ALLOWED_DUST_OUTPUTS

/-- Fast-path rejection condition (src lines 2623-2628): the node flags
dust as not allowed, exactly one net dust output is created and the
allowance delta is non-positive. -/
def dustFastReject (dust_allowed : Bool) (outputs : List (Nat × Bool)) : Prop :=
  dust_allowed = false ∧ txDustDelta outputs = 1 ∧ txAllowanceDelta outputs ≤ 0

instance (dust_allowed : Bool) (balance : Nat) (outputs : List (Nat × Bool)) :
    Decidable (dustFastAdmit dust_allowed balance outputs) := by
  unfold dustFastAdmit
  infer_instance

instance (dust_allowed : Bool) (outputs : List (Nat × Bool)) :
    Decidable (dustFastReject dust_allowed outputs) := by
  unfold dustFastReject
  infer_instance

/-- C6 counterexample.  The claim says `is_dust_allowed` admits iff the
projected dust count is at most `min(floor(allowance / 100_000), 100)`
(with only a fast ADMIT path as exception).  Take `dust_allowed = false`
from the node, one created dust output of `500_000`, and an address that
locally holds an unspent `DustAllowance` output of `1_000_000`: the
claim's formula admits (projected count `1 ≤ min(10, 100)`), but the code
hits its fast REJECT path (src lines 2623-2628, not mentioned by the
claim) and returns `DustError` without ever counting the existing
outputs. -/
theorem dust_fast_reject_counterexample :
    txDustDelta [(500000, true)] + existingDust [(1000000, .signatureLockedDustAllowance)]
        ≤ min (Int.fdiv (txAllowanceDelta [(500000, true)] +
              existingAllowance [(1000000, .signatureLockedDustAllowance)]) DUST_DIVISOR)
            MAX_ALLOWED_DUST_OUTPUTS ∧
    is_dust_allowed false 10000000 [(1000000, .signatureLockedDustAllowance)] 3 [(500000, true)]
      = .error (.dustError 3) := by
  exact ⟨by decide, rfl⟩

/-- C6 (amended). Dust admission: `is_dust_allowed` admits iff the fast
admit path fires (node `dust_allowed=true`, net dust delta exactly `1`,
non-negative allowance delta, node balance / 100_000 below 100), or
the fast reject path does NOT fire (node `dust_allowed=false`, net dust
delta exactly `1`, non-positive allowance delta) and the projected
post-confirmation dust count is at most
`min(allowance_balance / 100_000, 100)` with `/` truncating toward zero
(Rust `i64` division); every rejection is `DustError` naming the
address. -/
theorem is_dust_allowed_characterization (dust_allowed : Bool) (balance : Nat)
    (address_outputs : List (Nat × OutputKind)) (address : Nat)
    (outputs : List (Nat × Bool)) :
    is_dust_allowed dust_allowed balance address_outputs address outputs
      = if dustFastAdmit dust_allowed balance outputs ∨
           (¬ dustFastReject dust_allowed outputs ∧
             txDustDelta outputs + existingDust address_outputs ≤
               min (Int.tdiv (txAllowanceDelta outputs + existingAllowance address_outputs)
                     DUST_DIVISOR)
                   MAX_ALLOWED_DUST_OUTPUTS)
        then .ok () else .error (.dustError address) := by
  unfold is_dust_allowed
  simp only [tx_fold_eq, outputs_fold_eq, zero_add]
  by_cases hA : dust_allowed = true ∧ txDustDelta outputs = 1 ∧ txAllowanceDelta outputs ≥ 0 ∧
      Int.tdiv (balance : Int) DUST_DIVISOR < MAX_ALLOWED_DUST_OUTPUTS
  · rw [if_pos hA,
      if_pos (Or.inl (show dustFastAdmit dust_allowed balance outputs from hA))]
  · rw [if_neg hA]
    by_cases hR : dust_allowed = false ∧ txDustDelta outputs = 1 ∧ txAllowanceDelta outputs ≤ 0
    · rw [if_pos hR]
      have hcond : ¬(dustFastAdmit dust_allowed balance outputs ∨
          (¬ dustFastReject dust_allowed outputs ∧
            txDustDelta outputs + existingDust address_outputs ≤
              min (Int.tdiv (txAllowanceDelta outputs + existingAllowance address_outputs)
                    DUST_DIVISOR) MAX_ALLOWED_DUST_OUTPUTS)) := by
        intro hc
        rcases hc with hc | hc
        · exact hA hc
        · exact hc.1 hR
      rw [if_neg hcond]
    · rw [if_neg hR]
      by_cases hle : txDustDelta outputs + existingDust address_outputs ≤
          min (Int.tdiv (txAllowanceDelta outputs + existingAllowance address_outputs)
                DUST_DIVISOR) MAX_ALLOWED_DUST_OUTPUTS
      · rw [if_neg (not_lt.mpr hle),
          if_pos (Or.inr ⟨show ¬ dustFastReject dust_allowed outputs from hR, hle⟩)]
      · rw [if_pos (lt_of_not_le hle)]
        have hcond : ¬(dustFastAdmit dust_allowed balance outputs ∨
            (¬ dustFastReject dust_allowed outputs ∧
              txDustDelta outputs + existingDust address_outputs ≤
                min (Int.tdiv (txAllowanceDelta outputs + existingAllowance address_outputs)
                      DUST_DIVISOR) MAX_ALLOWED_DUST_OUTPUTS)) := by
          intro hc
          rcases hc with hc | hc
          · exact hA hc
          · exact hle hc.2
        rw [if_neg hcond]

/-- Embedding of the destination-output dust recording of
`perform_transfer` (src lines 2043-2056): one `(amount, address, created)`
recorder is pushed for each transfer output, gated on
`transfer_amount < DUST_ALLOWANCE_VALUE` where `transfer_amount` is the
TOTAL `transfer_obj.amount()` (line 2043), not the individual output's
amount. -/
def perform_transfer_dust_recorders (transfer_obj : Transfer) : List (Nat × Nat × Bool) :=
  let transfer_amount := transfer_obj.amount
  transfer_obj.outputs.foldl (fun acc output =>
    if transfer_amount < DUST_ALLOWANCE_VALUE then
      acc ++ [(output.amount, output.address, true)]
    else acc) []

/-- Dust recording as the claim (and the dust-protection RFC cited at src
line 45, and the per-amount gates used for inputs at line 2104 and the
remainder at line 2362) describes it: a destination output is recorded as
created dust exactly when its own amount is below
`DUST_ALLOWANCE_VALUE`. -/
def claimed_dust_recorders (transfer_obj : Transfer) : List (Nat × Nat × Bool) :=
  (transfer_obj.outputs.filter (fun output => output.amount < DUST_ALLOWANCE_VALUE)).map
    (fun output => (output.amount, output.address, true))

/-- C7 (code evaluated at the failing input).  A transfer with two
`500_000` outputs (total `1_000_000`) records no created dust output at
all — the gate compares the TOTAL transfer amount against
`DUST_ALLOWANCE_VALUE` — although each output is individually dust and
the claim requires both to be recorded; the dust-admission check is
silently skipped for them.  A single-output `500_000` transfer is still
recorded, so the divergence is exactly the multi-output independence the
claim asserts. -/
theorem destination_dust_gate_uses_total :
    perform_transfer_dust_recorders ⟨[⟨1, 500000⟩, ⟨2, 500000⟩]⟩ = [] ∧
    claimed_dust_recorders ⟨[⟨1, 500000⟩, ⟨2, 500000⟩]⟩
      = [(500000, 1, true), (500000, 2, true)] ∧
    perform_transfer_dust_recorders ⟨[⟨1, 500000⟩]⟩ = [(500000, 1, true)] := by
  exact ⟨rfl, rfl, rfl⟩

/-- Reconciling event carrying the part of the balance delta not
explained by per-output events (src lines 1179-1194): received when the
unexplained change is positive, otherwise spent of its absolute value,
always with `message_id = none`. -/
def reconcilingEvent (address : Nat) (change : Int) : BalanceChangeEventData :=
  ⟨address,
   if 0 < change then BalanceChange.mkReceived change.toNat
   else BalanceChange.mkSpent change.natAbs,
   none⟩

lemma balanceChangeStep_cases (address : Nat)
    (before : List (OutputId × AddressOutput))
    (st : List BalanceChangeEventData × Int × Bool) (p : OutputId × AddressOutput) :
    balanceChangeStep address before st p = st ∨
      (balanceChangeStep address before st p).2.2 = true := by
  unfold balanceChangeStep
  by_cases h : before.any (fun q => q.1 = p.1)
  · left
    rw [if_pos h]
  · right
    rw [if_neg h]

lemma balanceChangeStep_flag (address : Nat)
    (before : List (OutputId × AddressOutput))
    (st : List BalanceChangeEventData × Int × Bool) (p : OutputId × AddressOutput)
    (h : st.2.2 = true) : (balanceChangeStep address before st p).2.2 = true := by
  rcases balanceChangeStep_cases address before st p with hc | hc
  · rw [hc]; exact h
  · exact hc

lemma balance_change_fold_flag (address : Nat)
    (before : List (OutputId × AddressOutput)) (outputs : List (OutputId × AddressOutput)) :
    ∀ st, st.2.2 = true →
      (outputs.foldl (balanceChangeStep address before) st).2.2 = true := by
  induction outputs with
  | nil => intro st h; exact h
  | cons p rest ih =>
      intro st h
      exact ih (balanceChangeStep address before st p)
        (balanceChangeStep_flag address before st p h)

lemma balance_change_fold_flag_false (address : Nat)
    (before : List (OutputId × AddressOutput)) (outputs : List (OutputId × AddressOutput)) :
    ∀ st, (outputs.foldl (balanceChangeStep address before) st).2.2 = false →
      outputs.foldl (balanceChangeStep address before) st = st := by
  induction outputs with
  | nil => intro st _; rfl
  | cons p rest ih =>
      intro st h
      rcases balanceChangeStep_cases address before st p with hc | hc
      · rw [List.foldl_cons, hc] at h ⊢
        exact ih st h
      · exfalso
        rw [List.foldl_cons] at h
        rw [balance_change_fold_flag address before rest _ hc] at h
        exact Bool.true_eq_false.mp h

lemma balanceChangeStep_isSome (address : Nat)
    (before : List (OutputId × AddressOutput))
    (st : List BalanceChangeEventData × Int × Bool) (p : OutputId × AddressOutput)
    (h : ∀ e ∈ st.1, e.message_id.isSome = true) :
    ∀ e ∈ (balanceChangeStep address before st p).1, e.message_id.isSome = true := by
  unfold balanceChangeStep
  by_cases hc : before.any (fun q => q.1 = p.1)
  · rw [if_pos hc]; exact h
  · rw [if_neg hc]
    intro e he
    simp only [List.mem_append, List.mem_singleton] at he
    rcases he with he | he
    · exact h e he
    · rw [he]
      rfl

lemma balance_change_fold_isSome (address : Nat)
    (before : List (OutputId × AddressOutput)) (outputs : List (OutputId × AddressOutput)) :
    ∀ st, (∀ e ∈ st.1, e.message_id.isSome = true) →
      ∀ e ∈ (outputs.foldl (balanceChangeStep address before) st).1,
        e.message_id.isSome = true := by
  induction outputs with
  | nil => intro st h; exact h
  | cons p rest ih =>
      intro st h
      exact ih (balanceChangeStep address before st p)
        (balanceChangeStep_isSome address before st p h)

/-- C8 counterexample.  The balance changed (0 to 5), spent outputs are
synced and the single new output fully explains the delta: the per-output
event is the only event returned — no final `message_id = None` event is
appended (src line 1178 emits it only when no per-output event was
emitted or the per-output deltas do not add up to the balance change),
refuting the claim that a final reconciling event is always emitted for
an address whose balance changed. -/
theorem no_final_event_when_explained :
    get_balance_change_events 0 5 1 true []
        [(⟨0, 0⟩, ⟨0, 0, 5, .signatureLockedSingle, false, 7, 1⟩)]
      = [⟨1, BalanceChange.mkReceived 5, some 7⟩] ∧
    (get_balance_change_events 0 5 1 true []
        [(⟨0, 0⟩, ⟨0, 0, 5, .signatureLockedSingle, false, 7, 1⟩)]).all
      (fun e => e.message_id.isSome) = true := by
  exact ⟨rfl, rfl⟩

/-- C8 (amended). Final reconciling event: when an address's balance
changed, every per-output event carries a message id, and the returned
event list is the per-output events followed by a final
`message_id = None` event carrying the unexplained delta exactly when the
per-output deltas do not add up to the balance change; when they fully
explain it, no final event is emitted. -/
theorem final_reconciling_event_amended
    (old_balance new_balance : Nat) (address : Nat) (sync_spent_outputs : Bool)
    (before_sync_outputs outputs : List (OutputId × AddressOutput))
    (st : List BalanceChangeEventData × Int × Bool)
    (hst : st = if sync_spent_outputs then
        balance_change_output_events address before_sync_outputs outputs
      else ([], 0, false))
    (h : new_balance ≠ old_balance) :
    (∀ e ∈ st.1, e.message_id.isSome = true) ∧
    get_balance_change_events old_balance new_balance address sync_spent_outputs
        before_sync_outputs outputs
      = st.1 ++
        (if st.2.1 = (new_balance : Int) - (old_balance : Int) then []
         else [reconcilingEvent address
           ((new_balance : Int) - (old_balance : Int) - st.2.1)]) := by
  have hfalse : st.2.2 = false → st.1 = [] ∧ st.2.1 = 0 := by
    intro hf
    by_cases hsso : sync_spent_outputs
    · rw [hst, if_pos hsso] at hf ⊢
      unfold balance_change_output_events at hf ⊢
      rw [balance_change_fold_flag_false address before_sync_outputs outputs _ hf]
      exact ⟨rfl, rfl⟩
    · rw [hst, if_neg hsso]
      exact ⟨rfl, rfl⟩
  constructor
  · by_cases hsso : sync_spent_outputs
    · rw [hst, if_pos hsso]
      unfold balance_change_output_events
      exact balance_change_fold_isSome address before_sync_outputs outputs ([], 0, false)
        (fun e he => absurd he (List.not_mem_nil e))
    · rw [hst, if_neg hsso]
      intro e he
      exact absurd he (List.not_mem_nil e)
  · unfold get_balance_change_events
    rw [← hst]
    by_cases hiff : st.2.1 = (new_balance : Int) - (old_balance : Int)
    · have hemit : st.2.2 = true := by
        by_contra hne
        obtain ⟨-, hzero⟩ := hfalse (Bool.not_eq_true _ ▸ hne)
        rw [hzero] at hiff
        have : (new_balance : Int) = (old_balance : Int) := by omega
        exact h (by exact_mod_cast this)
      rw [if_neg (by push_neg; exact ⟨by simp [hemit], hiff⟩), if_pos hiff]
      simp
    · rw [if_pos (Or.inr hiff), if_neg hiff]
      rfl

/-- C8 witness: a concrete run of the amended theorem.  The balance went
from 0 to 9 but the only new output explains just 5 of it: the per-output
event (with a message id) is followed by a final `message_id = None`
event carrying the remaining 4. -/
theorem final_reconciling_event_amended_witness :
    (∀ e ∈ (balance_change_output_events 1 []
        [(⟨0, 0⟩, ⟨0, 0, 5, .signatureLockedSingle, false, 7, 1⟩)]).1,
      e.message_id.isSome = true) ∧
    get_balance_change_events 0 9 1 true []
        [(⟨0, 0⟩, ⟨0, 0, 5, .signatureLockedSingle, false, 7, 1⟩)]
      = (balance_change_output_events 1 []
          [(⟨0, 0⟩, ⟨0, 0, 5, .signatureLockedSingle, false, 7, 1⟩)]).1 ++
        (if (balance_change_output_events 1 []
              [(⟨0, 0⟩, ⟨0, 0, 5, .signatureLockedSingle, false, 7, 1⟩)]).2.1
            = (9 : Int) - (0 : Int) then []
         else [reconcilingEvent 1 ((9 : Int) - (0 : Int)
            - (balance_change_output_events 1 []
                [(⟨0, 0⟩, ⟨0, 0, 5, .signatureLockedSingle, false, 7, 1⟩)]).2.1)]) := by
  exact final_reconciling_event_amended 0 9 1 true []
    [(⟨0, 0⟩, ⟨0, 0, 5, .signatureLockedSingle, false, 7, 1⟩)]
    (balance_change_output_events 1 []
      [(⟨0, 0⟩, ⟨0, 0, 5, .signatureLockedSingle, false, 7, 1⟩)])
    (by rw [if_pos rfl]) (by decide)

/-! Repost engine (src lines 2675-2811). -/

/-- Embedding of `RepostAction` (src lines 2675-2679). -/
inductive RepostAction where
  | retry
  | reattach
  | promote
deriving DecidableEq, Repr

/-- Node response to `get_output` for a transaction input during repost
(src lines 2699-2719): the output with its `is_spent` flag, a response
error whose text contains `output not found` (the node pruned the spent
output), or any other error. -/
inductive NodeOutputResponse where
  | found (is_spent : Bool)
  | notFound
  | otherError
deriving DecidableEq, Repr

/-- Embedding of the spent-input scan of `repost_message`
(src lines 2696-2721): the inputs are queried in order; a spent output
sets the `spent_input` flag and the scan continues, `output not found`
sets it too, and any other error aborts the whole call. -/
def check_spent_inputs (node_output : Nat → NodeOutputResponse) :
    List Nat → Except WalletError Bool
  | [] => .ok false
  | input :: rest =>
      match node_output input with
      | .found s => (check_spent_inputs node_output rest).map (fun r => s || r)
      | .notFound => (check_spent_inputs node_output rest).map (fun r => true || r)
      | .otherError => .error (.clientError .other)

/-- Result of `repost_message` together with whether the
promote/reattach/retry RPC phase was reached and whether a message was
persisted afterwards. -/
structure RepostOutcome where
  result : Except WalletError Nat
  rpc_called : Bool
  saved : Bool
deriving Repr

/-- Embedding of `repost_message` (src lines 2681-2811) for a stored
message.  `tx_inputs` is `some` of the transaction's input ids when the
payload is a transaction, `none` for any other payload; `included`
models `get_included_message` succeeding (src lines 2729-2741).  The RPC
phase with its fallback reposting (src lines 2743-2803) and the final
`save_messages` are collapsed into reaching that phase (`rpc_called` and
`saved`, with the new message id as result); the claims under study are
about the prechecks, which return before that phase. -/
def repost_message (message_id : Nat) (_action : RepostAction)
    (tx_inputs : Option (List Nat)) (node_output : Nat → NodeOutputResponse)
    (included : Bool) : RepostOutcome :=
  match tx_inputs with
  | some inputs =>
      match check_spent_inputs node_output inputs with
      | .error e => ⟨.error e, false, false⟩
      | .ok spent_input =>
          if spent_input then
            ⟨.error (.clientError (.noNeedPromoteOrReattach message_id)), false, false⟩
          else if included then
            ⟨.error (.clientError (.noNeedPromoteOrReattach message_id)), false, false⟩
          else ⟨.ok message_id, true, true⟩
  | none => ⟨.ok message_id, true, true⟩

/-- C10 counterexample.  The node reports input `1` of the stored
transaction as spent, but the query for input `0` fails with an error
other than `output not found`: `repost_message` propagates that error
(src line 2713) instead of returning `NoNeedPromoteOrReattach`, refuting
the claim as universally stated over node-reported states.  (No RPC is
invoked and nothing is saved, as the claim says.) -/
theorem repost_error_despite_spent_input :
    repost_message 42 .retry (some [0, 1])
        (fun input => if input = 0 then .otherError else .found true) false
      = ⟨.error (.clientError .other), false, false⟩ ∧
    (fun input => if input = 0 then .otherError else (.found true : NodeOutputResponse)) 1
      = .found true := by
  exact ⟨rfl, rfl⟩

/-- Whether a node response marks the input as spent (explicitly spent or
pruned). -/
def spent_response (node_output : Nat → NodeOutputResponse) (i : Nat) : Bool :=
  match node_output i with
  | .found s => s
  | .notFound => true
  | .otherError => false

lemma check_spent_inputs_ok (node_output : Nat → NodeOutputResponse) :
    ∀ inputs : List Nat, (∀ i ∈ inputs, node_output i ≠ .otherError) →
      check_spent_inputs node_output inputs
        = .ok (inputs.any (spent_response node_output)) := by
  intro inputs
  induction inputs with
  | nil => intro _; rfl
  | cons input rest ih =>
      intro hok
      have hrest := ih (fun i hi => hok i (List.mem_cons_of_mem input hi))
      unfold check_spent_inputs
      cases hn : node_output input with
      | found s =>
          rw [hrest]
          simp only [List.any_cons, spent_response, hn]
          rfl
      | notFound =>
          rw [hrest]
          simp only [List.any_cons, spent_response, hn]
          rfl
      | otherError => exact absurd hn (hok input (List.mem_cons_self input rest))

/-- C10 (amended). Repost no-op on spent input: provided no input query
fails with an error other than `output not found`, if the node reports
any input of the stored transaction as spent or no longer knows it
(pruned), then `repost_message` — for every action — returns
`NoNeedPromoteOrReattach` without reaching the retry/reattach/promote RPC
phase and without persisting anything, regardless of the inclusion
lookup. -/
theorem repost_noop_amended (message_id : Nat) (action : RepostAction)
    (inputs : List Nat) (node_output : Nat → NodeOutputResponse) (included : Bool)
    (hok : ∀ i ∈ inputs, node_output i ≠ .otherError)
    (hspent : ∃ i ∈ inputs, node_output i = .found true ∨ node_output i = .notFound) :
    repost_message message_id action (some inputs) node_output included
      = ⟨.error (.clientError (.noNeedPromoteOrReattach message_id)), false, false⟩ := by
  have hany : inputs.any (spent_response node_output) = true := by
    rw [List.any_eq_true]
    obtain ⟨i, hi, hc⟩ := hspent
    refine ⟨i, hi, ?_⟩
    rcases hc with hc | hc <;> simp [spent_response, hc]
  have hchk := check_spent_inputs_ok node_output inputs hok
  rw [hany] at hchk
  unfold repost_message
  simp only [hchk]
  rfl

/-- C10 witness: a concrete run of the amended theorem — the single input
is reported spent, and for the promote action (with the inclusion lookup
even succeeding) the result is `NoNeedPromoteOrReattach` with no RPC
reached and nothing saved. -/
theorem repost_noop_amended_witness :
    repost_message 42 .promote (some [7]) (fun _ => .found true) true
      = ⟨.error (.clientError (.noNeedPromoteOrReattach 42)), false, false⟩ := by
  exact repost_noop_amended 42 .promote [7] (fun _ => .found true) true
    (by intro i _; simp) ⟨7, by decide, Or.inl rfl⟩

end WalletSync
